import Mathlib

/-!
Shallow embedding of `src/file_organizer.py` (Offline-AI-File-Organizer).

The program is a single-component file renamer/organizer: it enumerates
files with a supported extension under a root, extracts a text preview,
asks a local inference service for a name suggestion and a category label,
and renames / moves files with deterministic collision handling, keeping
an in-memory log that is written only at the end of a live run.

The embedding threads an explicit state `OrgState` (the set of files under
the root, the two in-memory logs, a trace of performed operations and a
console trace).  All external calls (HTTP requests to the inference
service, per-format extraction libraries, filesystem rename/move success)
are modelled as oracles in `Env`; everything the Python code computes
itself (string sanitization, candidate names, collision loops, control
flow, log contents) is translated directly.
-/

/-! ### Characters and Python string primitives -/

/-- ASCII whitespace, the characters matched by Python `str.strip()` and
the regex class `\s` on the ASCII range. -/
def isSpaceChar (c : Char) : Bool :=
  c = ' ' || c = '\t' || c = '\n' || c = '\r' || c = '\x0b' || c = '\x0c'

/-- The characters removed by the program's sanitizers:
Python `re.sub(r'[<>:"/\\|?*]', '', name)`. -/
def illegalFilenameChars : List Char :=
  ['<', '>', ':', '"', '/', '\\', '|', '?', '*']

/-- Remove every character of `illegalFilenameChars`. -/
def removeIllegal (cs : List Char) : List Char :=
  cs.filter (fun c => !illegalFilenameChars.contains c)

/-- Python `str.strip()` restricted to ASCII whitespace. -/
def stripChars (cs : List Char) : List Char :=
  ((cs.dropWhile isSpaceChar).reverse.dropWhile isSpaceChar).reverse

/-- Python `str.strip('. ')`: strip leading and trailing dots and spaces. -/
def isDotSpace (c : Char) : Bool := c = '.' || c = ' '

/-- Strip leading/trailing dots and spaces, as `name.strip('. ')`. -/
def stripDotSpace (cs : List Char) : List Char :=
  ((cs.dropWhile isDotSpace).reverse.dropWhile isDotSpace).reverse

/-- Python `re.sub(r'\s+', ' ', s)`: replace each maximal whitespace run
by one space.  The boolean flag records whether the previous character
was part of a whitespace run. -/
def collapseWsAux : Bool → List Char → List Char
  | _, [] => []
  | prev, c :: cs =>
    if isSpaceChar c then
      if prev then collapseWsAux true cs else ' ' :: collapseWsAux true cs
    else c :: collapseWsAux false cs

/-- `re.sub(r'\s+', ' ', s)` on a string. -/
def collapseWs (cs : List Char) : List Char := collapseWsAux false cs

/-- Python `str.strip()` on a `String`. -/
def pyStrip (s : String) : String := String.mk (stripChars s.data)

/-- ASCII lower-casing of one character (`str.lower()` on the characters
that occur in file extensions). -/
def lowerChar (c : Char) : Char :=
  if 'A' ≤ c ∧ c ≤ 'Z' then Char.ofNat (c.toNat + 32) else c

/-- Python `str.lower()` (ASCII range). -/
def pyLower (s : String) : String := String.mk (s.data.map lowerChar)

/-! ### `pathlib` name splitting

CPython computes `Path.suffix` / `Path.stem` from the final component
`name` as: let `i` be the index of the last dot; if `0 < i < len - 1`
the suffix is `name[i:]` and the stem `name[:i]`, otherwise the suffix
is empty and the stem is the whole name. -/

/-- Index of the last `'.'` in the list, if any. -/
def lastDotIdx (cs : List Char) : Option Nat :=
  match cs.reverse.findIdx? (fun c => c = '.') with
  | none => none
  | some j => some (cs.length - 1 - j)

/-- `(stem, suffix)` of a final path component, as in CPython `pathlib`. -/
def pySplit (name : String) : String × String :=
  let cs := name.data
  match lastDotIdx cs with
  | none => (name, "")
  | some i =>
    if 0 < i ∧ i < cs.length - 1 then
      (String.mk (cs.take i), String.mk (cs.drop i))
    else (name, "")

/-- `Path.stem` of a file name. -/
def pyStem (name : String) : String := (pySplit name).1

/-- `Path.suffix` of a file name (includes the leading dot). -/
def pySuffix (name : String) : String := (pySplit name).2

/-! ### Configuration constants (`file_organizer.py` lines 29-35) -/

/-- `SUPPORTED_EXTENSIONS` from the source. -/
def SUPPORTED_EXTENSIONS : List String :=
  [".pdf", ".doc", ".docx", ".txt", ".epub", ".csv",
   ".xlsx", ".xls", ".rtf", ".odt", ".md"]

/-- `MAX_CONTENT_LENGTH = 3000`. -/
def MAX_CONTENT_LENGTH : Nat := 3000

/-- The guard `file_path.suffix.lower() in SUPPORTED_EXTENSIONS`. -/
def isSupported (name : String) : Bool :=
  SUPPORTED_EXTENSIONS.contains (pyLower (pySuffix name))

/-- The fixed category set offered in the categorization prompt
(`ask_ai_for_category`, line 134). -/
def categoryLabels : List String :=
  ["Work", "Personal", "Finance", "Medical", "Education",
   "Legal", "Photos", "Projects", "Archive", "Miscellaneous"]

/-! ### Paths and state -/

/-- A filesystem path: directory components plus final file name. -/
structure FPath where
  dir : List String
  name : String
deriving DecidableEq, Repr

/-- `str(path)` with `/` as separator. -/
def pathStr (p : FPath) : String :=
  String.intercalate "/" (p.dir ++ [p.name])

/-- `str(path.parent)`. -/
def dirStr (d : List String) : String := String.intercalate "/" d

/-- Outcome of one HTTP request to the inference service, with the
generated text already extracted from `choices[0].message.content`.
`exn` covers timeouts, connection errors and malformed bodies (anything
the `except` clause catches). -/
inductive HttpOutcome where
  | ok (body : String)
  | badStatus (code : Nat)
  | exn
deriving DecidableEq, Repr

/-- `true` on the branches that the code treats as failure. -/
def HttpOutcome.failed : HttpOutcome → Bool
  | .ok _ => false
  | .badStatus _ => true
  | .exn => true

/-- Outcome of the liveness probe `requests.get(".../v1/models")`. -/
inductive ProbeOutcome where
  | ok200
  | badStatus (code : Nat)
  | connError
deriving DecidableEq, Repr

/-- Oracles for the per-format extraction libraries: `some text` when the
library call returns `text`, `none` when it raises. -/
structure Extractors where
  pdf : Option String
  docx : Option String
  txtFile : Option String
  csv : Option String
  excel : Option String
  epub : Option String
deriving DecidableEq, Repr

/-- Operations performed by a run, recorded in order.  `extract`,
`askName`, `askCategory` and `probe` are observations (reads / external
calls); `rename`, `mkdir`, `move` and `writeLog` mutate the filesystem. -/
inductive Op where
  | extract (fp : FPath)
  | askName (fp : FPath)
  | askCategory (fp : FPath)
  | probe
  | rename (src dst : FPath)
  | mkdir (d : List String)
  | move (src dst : FPath)
  | writeLog (renamed : List (String × String))
             (organized : List (String × String × String))
deriving DecidableEq, Repr

/-- Does the operation mutate the filesystem? -/
def Op.isMutation : Op → Bool
  | .rename _ _ => true
  | .mkdir _ => true
  | .move _ _ => true
  | .writeLog _ _ => true
  | _ => false

/-- The file an operation is applied to, if any. -/
def opSource : Op → Option FPath
  | .extract fp => some fp
  | .askName fp => some fp
  | .askCategory fp => some fp
  | .rename src _ => some src
  | .move src _ => some src
  | _ => none

/-- Is the operation applied to the file `fp`? -/
def opTouches (fp : FPath) (op : Op) : Bool := opSource op == some fp

/-- Console messages the program prints (only those relevant to the
specified behavior are modelled). -/
inductive ConsoleMsg where
  | processing (fp : FPath)
  | warnNoName (fp : FPath)
  | suggested (name : String)
  | renameError (fp : FPath)
  | moved (category : String) (fp : FPath)
  | wouldMove (category : String) (fp : FPath)
  | moveError (fp : FPath)
  | connectionOk
  | connectionFailed
  | cannotConnect
deriving DecidableEq, Repr

/-- State threaded through a run: the files under the root, the two
in-memory logs of `FileOrganizer`, the trace of performed operations and
the console output. -/
structure OrgState where
  fs : List FPath
  rename_log : List (String × String)
  organize_log : List (String × String × String)
  ops : List Op
  console : List ConsoleMsg
deriving DecidableEq, Repr

/-- Environment of oracles for all external behavior: inference-service
responses (keyed by the file and the content preview sent), file dates,
extraction library results, and whether a rename/move raises. -/
structure Env where
  probeResp : ProbeOutcome
  nameResp : FPath → String → HttpOutcome
  catResp : FPath → String → HttpOutcome
  dateOf : FPath → String
  extractors : FPath → Extractors
  renameFails : FPath → FPath → Bool
  moveFails : FPath → FPath → Bool

/-! ### Advisors (`ask_ai_for_name`, `ask_ai_for_category`) -/

/-- The post-processing of `ask_ai_for_name` on a successful response
(lines 117-121): `.strip()`, remove `<>:"/\|?*`, collapse whitespace
runs to one space, take the first 60 characters, `.strip()` again. -/
def cleanAiNameList (cs : List Char) : List Char :=
  stripChars ((collapseWs (removeIllegal (stripChars cs))).take 60)

/-- `cleanAiNameList` on a `String`. -/
def cleanAiName (s : String) : String := String.mk (cleanAiNameList s.data)

/-- `ask_ai_for_name` (lines 84-128) as a function of the HTTP outcome:
status 200 returns the cleaned text, everything else returns `None`. -/
def ask_ai_for_name (resp : HttpOutcome) : Option String :=
  match resp with
  | .ok body => some (cleanAiName body)
  | .badStatus _ => none
  | .exn => none

/-- `ask_ai_for_category` (lines 130-160): status 200 returns the model
text stripped, any failure returns `"Miscellaneous"`.  Note the success
branch performs no validation against `categoryLabels`. -/
def ask_ai_for_category (resp : HttpOutcome) : String :=
  match resp with
  | .ok body => pyStrip body
  | .badStatus _ => "Miscellaneous"
  | .exn => "Miscellaneous"

/-! ### Content extraction (`extract_text_content`, lines 43-82) -/

/-- `extract_text_content`: dispatch on the lower-cased suffix; `.doc`,
`.rtf` and `.odt` have no branch, so `content` keeps its initial value
`""`.  An exception in a branch replaces the content by
`"File: " ++ stem`; the result is capped at `MAX_CONTENT_LENGTH`. -/
def extract_text_content (fp : FPath) (ex : Extractors) : String :=
  let ext := pyLower (pySuffix fp.name)
  let attempt : Option String :=
    if ext = ".pdf" then ex.pdf
    else if ext = ".docx" then ex.docx
    else if ext = ".txt" || ext = ".md" then ex.txtFile
    else if ext = ".csv" then ex.csv
    else if ext = ".xlsx" || ext = ".xls" then ex.excel
    else if ext = ".epub" then ex.epub
    else some ""
  let content := match attempt with
    | some c => c
    | none => "File: " ++ pyStem fp.name
  String.mk (content.data.take MAX_CONTENT_LENGTH)

/-! ### Sanitization and candidate names (`sanitize_filename`, 168-175) -/

/-- `sanitize_filename`: remove `<>:"/\|?*`, strip leading/trailing dots
and spaces, cap at 200 characters. -/
def sanitize_filename (s : String) : String :=
  String.mk ((stripDotSpace (removeIllegal s.data)).take 200)

/-- The first candidate of the rename engine:
`f"{new_name} ({file_date}){file_path.suffix}"` (line 196). -/
def renameCandidate (nm fdate ext : String) : String :=
  nm ++ " (" ++ fdate ++ ")" ++ ext

/-- The `counter`-th candidate inside the duplicate loop:
`f"{new_name} ({file_date}) [{counter}]{file_path.suffix}"` (line 203). -/
def renameCandidateK (nm fdate ext : String) (c : Nat) : String :=
  nm ++ " (" ++ fdate ++ ") [" ++ Nat.repr c ++ "]" ++ ext

/-! ### Collision loops

Python iterates `while new_path.exists() and new_path != file_path`
(rename, line 202) and `while new_path.exists()` (organize, line 249).
Both loops terminate on any real filesystem because the candidates
`cand 1, cand 2, ...` have pairwise distinct names, so at most
`fs.length` of them can be occupied; the embeddings therefore run the
loop with `fs.length + 2` units of fuel, which is always enough to reach
the first free candidate. -/

/-- The rename-engine loop: advance to `cand c` while the current
candidate exists and is not the file itself. -/
def resolveCollision (fs : List FPath) (self : FPath) (cand : Nat → FPath) :
    FPath → Nat → Nat → FPath
  | cur, _, 0 => cur
  | cur, c, fuel + 1 =>
    if cur ∈ fs ∧ cur ≠ self then
      resolveCollision fs self cand (cand c) (c + 1) fuel
    else cur

/-- The organize-engine loop: identical but with no exception for the
file itself. -/
def resolveCollisionNoSelf (fs : List FPath) (cand : Nat → FPath) :
    FPath → Nat → Nat → FPath
  | cur, _, 0 => cur
  | cur, c, fuel + 1 =>
    if cur ∈ fs then
      resolveCollisionNoSelf fs cand (cand c) (c + 1) fuel
    else cur

/-- Target path chosen by `rename_file` (lines 195-205): sanitized first
candidate, then the duplicate loop (whose candidates are not passed
through `sanitize_filename` in the source). -/
def renameTarget (fs : List FPath) (fp : FPath) (nm fdate : String) : FPath :=
  let ext := pySuffix fp.name
  resolveCollision fs fp
    (fun c => ⟨fp.dir, renameCandidateK nm fdate ext c⟩)
    ⟨fp.dir, sanitize_filename (renameCandidate nm fdate ext)⟩
    1 (fs.length + 2)

/-! ### `rename_file` (lines 177-221) -/

/-- `rename_file`: returns the value the Python function returns
(`None` or the target path) together with the updated state.  Each
branch builds its final state in one step (the ops and console entries
of the branch are appended together). -/
def rename_file (env : Env) (st : OrgState) (fp : FPath) (dry : Bool) :
    Option FPath × OrgState :=
  if isSupported fp.name then
    let content := extract_text_content fp (env.extractors fp)
    match ask_ai_for_name (env.nameResp fp content) with
    | none =>
      (none,
       { st with ops := st.ops ++ [Op.extract fp, Op.askName fp],
                 console := st.console ++
                   [ConsoleMsg.processing fp, ConsoleMsg.warnNoName fp] })
    | some nm =>
      if nm = "" then
        (none,
         { st with ops := st.ops ++ [Op.extract fp, Op.askName fp],
                   console := st.console ++
                     [ConsoleMsg.processing fp, ConsoleMsg.warnNoName fp] })
      else
        let target := renameTarget st.fs fp nm (env.dateOf fp)
        if dry = false ∧ target ≠ fp then
          if env.renameFails fp target then
            (none,
             { st with ops := st.ops ++ [Op.extract fp, Op.askName fp],
                       console := st.console ++
                         [ConsoleMsg.processing fp, ConsoleMsg.suggested target.name,
                          ConsoleMsg.renameError fp] })
          else
            (some target,
             { st with fs := st.fs.erase fp ++ [target],
                       rename_log := st.rename_log ++ [(pathStr fp, pathStr target)],
                       ops := st.ops ++
                         [Op.extract fp, Op.askName fp, Op.rename fp target],
                       console := st.console ++
                         [ConsoleMsg.processing fp, ConsoleMsg.suggested target.name] })
        else
          (some target,
           { st with ops := st.ops ++ [Op.extract fp, Op.askName fp],
                     console := st.console ++
                       [ConsoleMsg.processing fp, ConsoleMsg.suggested target.name] })
  else (none, st)

/-! ### `organize_files` (lines 223-264) -/

/-- One iteration of the `organize_files` loop body (lines 236-264).
Each branch builds its final state in one step. -/
def organizeStep (env : Env) (organizeRoot : List String) (dry : Bool)
    (st : OrgState) (fp : FPath) : OrgState :=
  let content := extract_text_content fp (env.extractors fp)
  let category := ask_ai_for_category (env.catResp fp content)
  let catFolder := organizeRoot ++ [category]
  if dry = false then
    let target := resolveCollisionNoSelf st.fs
      (fun c => ⟨catFolder, pyStem fp.name ++ " [" ++ Nat.repr c ++ "]" ++ pySuffix fp.name⟩)
      ⟨catFolder, fp.name⟩ 1 (st.fs.length + 2)
    if env.moveFails fp target then
      { st with ops := st.ops ++
                  [Op.extract fp, Op.askCategory fp, Op.mkdir catFolder],
                console := st.console ++ [ConsoleMsg.moveError fp] }
    else
      { st with fs := st.fs.erase fp ++ [target],
                organize_log := st.organize_log ++
                  [(fp.name, dirStr fp.dir, dirStr target.dir)],
                ops := st.ops ++
                  [Op.extract fp, Op.askCategory fp, Op.mkdir catFolder,
                   Op.move fp target],
                console := st.console ++ [ConsoleMsg.moved category fp] }
  else
    { st with ops := st.ops ++ [Op.extract fp, Op.askCategory fp],
              console := st.console ++ [ConsoleMsg.wouldMove category fp] }

/-- `organize_files`: enumerate the supported files once (lines 229-232),
then process them in order. -/
def organize_files (env : Env) (st : OrgState) (organizeRoot : List String)
    (dry : Bool) : OrgState :=
  (st.fs.filter (fun p => isSupported p.name)).foldl
    (organizeStep env organizeRoot dry) st

/-! ### `process_all_files` (lines 266-316) -/

/-- The rename pass of the orchestrator (lines 296-302). -/
def renamePass (env : Env) (dry : Bool) (st : OrgState)
    (files : List FPath) : OrgState :=
  files.foldl (fun s fp => (rename_file env s fp dry).2) st

/-- `process_all_files`: probe the service first and abort on failure;
otherwise enumerate the supported files, run the rename pass and/or the
organize pass, and in live mode write the JSON log at the end. -/
def process_all_files (env : Env) (root : List String) (st : OrgState)
    (rename organize dry : Bool) : OrgState :=
  match env.probeResp with
  | ProbeOutcome.ok200 =>
    let st1 : OrgState :=
      { st with ops := st.ops ++ [Op.probe],
                console := st.console ++ [ConsoleMsg.connectionOk] }
    let allFiles := st1.fs.filter (fun p => isSupported p.name)
    let st2 := if rename then renamePass env dry st1 allFiles else st1
    let st3 := if organize then
        organize_files env st2 (root ++ ["Organized"]) dry
      else st2
    if dry = false then
      { st3 with ops := st3.ops ++ [Op.writeLog st3.rename_log st3.organize_log] }
    else st3
  | ProbeOutcome.badStatus _ =>
    { st with ops := st.ops ++ [Op.probe],
              console := st.console ++ [ConsoleMsg.connectionFailed] }
  | ProbeOutcome.connError =>
    { st with ops := st.ops ++ [Op.probe],
              console := st.console ++ [ConsoleMsg.cannotConnect] }

/-! ### Derived predicates used by the verification -/

/-- `s'` is reachable from `s` without touching the filesystem or the
logs: only console output and non-mutating operations were added. -/
def DryStep (s s' : OrgState) : Prop :=
  s'.fs = s.fs ∧ s'.rename_log = s.rename_log ∧
  s'.organize_log = s.organize_log ∧
  ∃ l, s'.ops = s.ops ++ l ∧ l.all (fun op => !op.isMutation) = true

/-- Every operation of the list that is applied to a file is applied to
a file with a supported extension. -/
def srcOk (l : List Op) : Bool :=
  l.all (fun op =>
    match opSource op with
    | some q => isSupported q.name
    | none => true)

/-- Modelled from the spec's words: the character class the spec allows
in a `NamingSuggestion` (alphanumeric, space, hyphen, underscore).  Used
only to compare the spec's sanitization claim with the code's. -/
def specNamingChar (c : Char) : Bool :=
  c.isAlphanum || c = ' ' || c = '-' || c = '_'

/-! ### Concrete fixtures for witnesses and counterexamples -/

/-- An environment whose advisors always answer successfully. -/
def okEnv : Env where
  probeResp := ProbeOutcome.ok200
  nameResp := fun _ _ => HttpOutcome.ok "Acme Corp Invoice"
  catResp := fun _ _ => HttpOutcome.ok "Finance"
  dateOf := fun _ => "2024-03"
  extractors := fun _ => ⟨none, none, none, none, none, none⟩
  renameFails := fun _ _ => false
  moveFails := fun _ _ => false

/-- An environment whose probe succeeds but whose advisors all fail. -/
def advisorDownEnv : Env where
  probeResp := ProbeOutcome.ok200
  nameResp := fun _ _ => HttpOutcome.exn
  catResp := fun _ _ => HttpOutcome.exn
  dateOf := fun _ => "2024-03"
  extractors := fun _ => ⟨none, none, none, none, none, none⟩
  renameFails := fun _ _ => false
  moveFails := fun _ _ => false

/-- An environment whose liveness probe gets a connection error. -/
def serviceDownEnv : Env where
  probeResp := ProbeOutcome.connError
  nameResp := fun _ _ => HttpOutcome.exn
  catResp := fun _ _ => HttpOutcome.exn
  dateOf := fun _ => "2024-03"
  extractors := fun _ => ⟨none, none, none, none, none, none⟩
  renameFails := fun _ _ => false
  moveFails := fun _ _ => false

/-- The scenario of claim C4: `invoice_march.pdf` with the base name and
the `[1]` suffix already taken. -/
def c4Src : FPath := ⟨["r"], "invoice_march.pdf"⟩

/-- Filesystem for the C4 witness. -/
def c4Fs : List FPath :=
  [⟨["r"], "invoice_march.pdf"⟩,
   ⟨["r"], "Acme Corp Invoice (2024-03).pdf"⟩,
   ⟨["r"], "Acme Corp Invoice (2024-03) [1].pdf"⟩]

/-- An already-renamed file for the C5 witness. -/
def c5File : FPath := ⟨["r"], "Acme Corp Invoice (2024-03).pdf"⟩

/-- State holding only the already-renamed file. -/
def c5State : OrgState := ⟨[c5File], [], [], [], []⟩

/-- Files for the C7 witness: the advisor fails on both. -/
def c7File : FPath := ⟨["r"], "notes.txt"⟩

/-- A second supported file processed after `c7File`. -/
def c7File2 : FPath := ⟨["r"], "report.pdf"⟩

/-- State for the C7 witness. -/
def c7State : OrgState := ⟨[c7File, c7File2], [], [], [], []⟩

/-- An unsupported file for the C8 witness. -/
def c8File : FPath := ⟨["r"], "virus.exe"⟩

/-- A run over an unsupported and a supported file for the C8 witness. -/
def c8Fs : List FPath := [c8File, ⟨["r"], "notes.txt"⟩]

/-- Environment of the C9 scenario: categorizer answers `"Finance"`. -/
def c9Env : Env where
  probeResp := ProbeOutcome.ok200
  nameResp := fun _ _ => HttpOutcome.exn
  catResp := fun _ _ => HttpOutcome.ok "Finance"
  dateOf := fun _ => "2024-03"
  extractors := fun _ => ⟨none, none, none, none, none, none⟩
  renameFails := fun _ _ => false
  moveFails := fun _ _ => false

/-- A file already sitting at its computed organize destination
`{organizeRoot}/Finance/bank_stmt.csv`. -/
def c9File : FPath := ⟨["root", "Organized", "Finance"], "bank_stmt.csv"⟩

/-- State holding only `c9File`. -/
def c9State : OrgState := ⟨[c9File], [], [], [], []⟩

/-! ### Lemmas about the string primitives -/

lemma mem_of_mem_dropWhile {p : Char → Bool} :
    ∀ {cs : List Char} {c : Char}, c ∈ cs.dropWhile p → c ∈ cs := by
  intro cs c h
  induction cs with
  | nil => simp at h
  | cons a t ih =>
    rw [List.dropWhile_cons] at h
    split at h
    · exact List.mem_cons_of_mem a (ih h)
    · exact h

lemma mem_of_mem_stripChars {cs : List Char} {c : Char}
    (h : c ∈ stripChars cs) : c ∈ cs := by
  unfold stripChars at h
  rw [List.mem_reverse] at h
  have h1 := mem_of_mem_dropWhile h
  rw [List.mem_reverse] at h1
  exact mem_of_mem_dropWhile h1

lemma length_dropWhile_le (p : Char → Bool) (cs : List Char) :
    (cs.dropWhile p).length ≤ cs.length := by
  induction cs with
  | nil => simp
  | cons a t ih =>
    rw [List.dropWhile_cons]
    split
    · exact le_trans ih (by simp)
    · simp

lemma length_stripChars_le (cs : List Char) :
    (stripChars cs).length ≤ cs.length := by
  unfold stripChars
  rw [List.length_reverse]
  calc ((cs.dropWhile isSpaceChar).reverse.dropWhile isSpaceChar).length
      ≤ (cs.dropWhile isSpaceChar).reverse.length :=
        length_dropWhile_le _ _
    _ = (cs.dropWhile isSpaceChar).length := List.length_reverse _
    _ ≤ cs.length := length_dropWhile_le _ _

lemma mem_collapseWsAux {c : Char} :
    ∀ {b : Bool} {cs : List Char}, c ∈ collapseWsAux b cs → c = ' ' ∨ c ∈ cs := by
  intro b cs
  induction cs generalizing b with
  | nil => intro h; simp only [collapseWsAux] at h; exact absurd h (List.not_mem_nil c)
  | cons a t ih =>
    intro h
    rw [collapseWsAux] at h
    split at h
    · split at h
      · rcases ih h with h1 | h1
        · exact Or.inl h1
        · exact Or.inr (List.mem_cons_of_mem a h1)
      · rcases List.mem_cons.mp h with h1 | h1
        · exact Or.inl h1
        · rcases ih h1 with h2 | h2
          · exact Or.inl h2
          · exact Or.inr (List.mem_cons_of_mem a h2)
    · rcases List.mem_cons.mp h with h1 | h1
      · exact Or.inr (h1 ▸ List.mem_cons_self a t)
      · rcases ih h1 with h2 | h2
        · exact Or.inl h2
        · exact Or.inr (List.mem_cons_of_mem a h2)

lemma not_illegal_of_mem_cleanAiNameList {cs : List Char} {c : Char}
    (h : c ∈ cleanAiNameList cs) : illegalFilenameChars.contains c = false := by
  unfold cleanAiNameList at h
  have h1 := List.mem_of_mem_take (mem_of_mem_stripChars h)
  rcases mem_collapseWsAux h1 with h2 | h2
  · subst h2; decide
  · have h3 := List.mem_filter.mp h2
    simpa using h3.2

lemma length_cleanAiNameList_le (cs : List Char) :
    (cleanAiNameList cs).length ≤ 60 := by
  unfold cleanAiNameList
  calc (stripChars ((collapseWs (removeIllegal (stripChars cs))).take 60)).length
      ≤ ((collapseWs (removeIllegal (stripChars cs))).take 60).length :=
        length_stripChars_le _
    _ ≤ 60 := by simp [List.length_take]

/-! ### Lemmas about the collision loops -/

lemma resolveCollision_exit {fs : List FPath} {self cur : FPath}
    (cand : Nat → FPath) (h : ¬(cur ∈ fs ∧ cur ≠ self)) :
    ∀ fuel c, resolveCollision fs self cand cur c fuel = cur := by
  intro fuel c
  cases fuel with
  | zero => rfl
  | succ n => rw [resolveCollision, if_neg h]

lemma resolveCollision_self {fs : List FPath} {self : FPath}
    (cand : Nat → FPath) :
    ∀ fuel c, resolveCollision fs self cand self c fuel = self := by
  intro fuel c
  exact resolveCollision_exit cand (by simp) fuel c

lemma resolveCollision_run {fs : List FPath} {self : FPath}
    {cand : Nat → FPath} {N : Nat}
    (hocc : ∀ i, 1 ≤ i → i ≤ N → cand i ∈ fs ∧ cand i ≠ self)
    (hfree : cand (N + 1) ∉ fs) :
    ∀ fuel c cur, cur ∈ fs → cur ≠ self → 1 ≤ c → c ≤ N + 1 →
      N + 2 - c ≤ fuel →
      resolveCollision fs self cand cur c fuel = cand (N + 1) := by
  intro fuel
  induction fuel with
  | zero => intro c cur _ _ _ hc2 hf; omega
  | succ n ih =>
    intro c cur hmem hne hc1 hc2 hf
    rw [resolveCollision, if_pos ⟨hmem, hne⟩]
    by_cases hcN : c = N + 1
    · subst hcN
      exact resolveCollision_exit cand (fun hx => hfree hx.1) n (N + 1 + 1)
    · have hcN2 : c ≤ N := by omega
      obtain ⟨hm, hn⟩ := hocc c hc1 hcN2
      exact ih (c + 1) (cand c) hm hn (by omega) (by omega) (by omega)

/-! ### Run-level invariants: dry runs -/

lemma dryStep_refl (s : OrgState) : DryStep s s :=
  ⟨rfl, rfl, rfl, [], by simp, rfl⟩

lemma dryStep_trans {s1 s2 s3 : OrgState}
    (h1 : DryStep s1 s2) (h2 : DryStep s2 s3) : DryStep s1 s3 := by
  obtain ⟨hf1, hr1, ho1, l1, hl1, ha1⟩ := h1
  obtain ⟨hf2, hr2, ho2, l2, hl2, ha2⟩ := h2
  refine ⟨hf2.trans hf1, hr2.trans hr1, ho2.trans ho1, l1 ++ l2, ?_, ?_⟩
  · rw [hl2, hl1, List.append_assoc]
  · rw [List.all_append, ha1, ha2]; rfl

lemma rename_file_dry (env : Env) (st : OrgState) (fp : FPath) :
    DryStep st (rename_file env st fp true).2 := by
  unfold rename_file
  dsimp only
  split
  · split
    · exact ⟨rfl, rfl, rfl, [Op.extract fp, Op.askName fp], rfl, rfl⟩
    · split
      · exact ⟨rfl, rfl, rfl, [Op.extract fp, Op.askName fp], rfl, rfl⟩
      · split
        · rename_i hcond; exact absurd hcond.1 (by simp)
        · exact ⟨rfl, rfl, rfl, [Op.extract fp, Op.askName fp], rfl, rfl⟩
  · exact dryStep_refl st

lemma renamePass_dry (env : Env) :
    ∀ (files : List FPath) (st : OrgState),
      DryStep st (renamePass env true st files) := by
  intro files
  induction files with
  | nil => intro st; exact dryStep_refl st
  | cons f t ih =>
    intro st
    exact dryStep_trans (rename_file_dry env st f) (ih _)

lemma organizeStep_dry (env : Env) (organizeRoot : List String)
    (st : OrgState) (fp : FPath) :
    DryStep st (organizeStep env organizeRoot true st fp) := by
  unfold organizeStep
  dsimp only
  split
  · rename_i hcond; exact absurd hcond (by simp)
  · exact ⟨rfl, rfl, rfl, [Op.extract fp, Op.askCategory fp], rfl, rfl⟩

lemma organizeFold_dry (env : Env) (organizeRoot : List String) :
    ∀ (files : List FPath) (st : OrgState),
      DryStep st (files.foldl (organizeStep env organizeRoot true) st) := by
  intro files
  induction files with
  | nil => intro st; exact dryStep_refl st
  | cons f t ih =>
    intro st
    exact dryStep_trans (organizeStep_dry env organizeRoot st f) (ih _)

lemma organize_files_dry (env : Env) (st : OrgState) (organizeRoot : List String) :
    DryStep st (organize_files env st organizeRoot true) :=
  organizeFold_dry env organizeRoot _ st

lemma process_dry (env : Env) (root : List String) (st : OrgState) (r o : Bool) :
    DryStep st (process_all_files env root st r o true) := by
  cases hp : env.probeResp with
  | ok200 =>
    simp only [process_all_files, hp]
    have h1 : DryStep st
        { st with ops := st.ops ++ [Op.probe],
                  console := st.console ++ [ConsoleMsg.connectionOk] } :=
      ⟨rfl, rfl, rfl, [Op.probe], rfl, rfl⟩
    split
    · rename_i hcond; exact absurd hcond (by simp)
    · split
      · split
        · exact dryStep_trans h1
            (dryStep_trans (renamePass_dry env _ _) (organize_files_dry env _ _))
        · exact dryStep_trans h1 (organize_files_dry env _ _)
      · split
        · exact dryStep_trans h1 (renamePass_dry env _ _)
        · exact h1
  | badStatus c =>
    simp only [process_all_files, hp]
    exact ⟨rfl, rfl, rfl, [Op.probe], rfl, rfl⟩
  | connError =>
    simp only [process_all_files, hp]
    exact ⟨rfl, rfl, rfl, [Op.probe], rfl, rfl⟩

/-! ### Run-level invariants: which files operations are applied to -/

lemma srcOk_append (l1 l2 : List Op) : srcOk (l1 ++ l2) = (srcOk l1 && srcOk l2) :=
  List.all_append

lemma rename_file_ops (env : Env) (st : OrgState) (fp : FPath) (dry : Bool) :
    ∃ l, (rename_file env st fp dry).2.ops = st.ops ++ l ∧ srcOk l = true ∧
      (isSupported fp.name = true → Op.askName fp ∈ l) := by
  unfold rename_file
  dsimp only
  split
  · rename_i hsup
    split
    · exact ⟨_, rfl, (by simp [srcOk, opSource, hsup]), (fun _ => by simp)⟩
    · split
      · exact ⟨_, rfl, (by simp [srcOk, opSource, hsup]), (fun _ => by simp)⟩
      · split
        · split
          · exact ⟨_, rfl, (by simp [srcOk, opSource, hsup]), (fun _ => by simp)⟩
          · exact ⟨_, rfl, (by simp [srcOk, opSource, hsup]), (fun _ => by simp)⟩
        · exact ⟨_, rfl, (by simp [srcOk, opSource, hsup]), (fun _ => by simp)⟩
  · rename_i hsup
    refine ⟨[], (by simp), rfl, ?_⟩
    intro hs
    exact absurd hs (by simpa using hsup)

lemma renamePass_ops (env : Env) (dry : Bool) :
    ∀ (files : List FPath) (st : OrgState),
      ∃ l, (renamePass env dry st files).ops = st.ops ++ l ∧ srcOk l = true ∧
        ∀ g ∈ files, isSupported g.name = true → Op.askName g ∈ l := by
  intro files
  induction files with
  | nil =>
    intro st
    exact ⟨[], (by simp [renamePass]), rfl, (by simp)⟩
  | cons f t ih =>
    intro st
    obtain ⟨l1, hl1, hs1, hm1⟩ := rename_file_ops env st f dry
    obtain ⟨l2, hl2, hs2, hm2⟩ := ih (rename_file env st f dry).2
    refine ⟨l1 ++ l2, ?_, ?_, ?_⟩
    · show (renamePass env dry (rename_file env st f dry).2 t).ops = _
      rw [hl2, hl1, List.append_assoc]
    · rw [srcOk_append, hs1, hs2]; rfl
    · intro g hg hgs
      rcases List.mem_cons.mp hg with hg | hg
      · subst hg
        exact List.mem_append_left l2 (hm1 hgs)
      · exact List.mem_append_right l1 (hm2 g hg hgs)

lemma organizeStep_ops (env : Env) (organizeRoot : List String) (dry : Bool)
    (st : OrgState) (fp : FPath) (hsup : isSupported fp.name = true) :
    ∃ l, (organizeStep env organizeRoot dry st fp).ops = st.ops ++ l ∧
      srcOk l = true := by
  unfold organizeStep
  dsimp only
  split
  · split
    · exact ⟨_, rfl, (by simp [srcOk, opSource, hsup])⟩
    · exact ⟨_, rfl, (by simp [srcOk, opSource, hsup])⟩
  · exact ⟨_, rfl, (by simp [srcOk, opSource, hsup])⟩

lemma organizeFold_ops (env : Env) (organizeRoot : List String) (dry : Bool) :
    ∀ (files : List FPath) (st : OrgState),
      (∀ fp ∈ files, isSupported fp.name = true) →
      ∃ l, (files.foldl (organizeStep env organizeRoot dry) st).ops = st.ops ++ l ∧
        srcOk l = true := by
  intro files
  induction files with
  | nil => intro st _; exact ⟨[], (by simp), rfl⟩
  | cons f t ih =>
    intro st hall
    obtain ⟨l1, hl1, hs1⟩ := organizeStep_ops env organizeRoot dry st f
      (hall f (List.mem_cons_self f t))
    obtain ⟨l2, hl2, hs2⟩ := ih (organizeStep env organizeRoot dry st f)
      (fun g hg => hall g (List.mem_cons_of_mem f hg))
    refine ⟨l1 ++ l2, ?_, ?_⟩
    · show (t.foldl (organizeStep env organizeRoot dry)
        (organizeStep env organizeRoot dry st f)).ops = _
      rw [hl2, hl1, List.append_assoc]
    · rw [srcOk_append, hs1, hs2]; rfl

lemma organize_files_ops (env : Env) (st : OrgState) (organizeRoot : List String)
    (dry : Bool) :
    ∃ l, (organize_files env st organizeRoot dry).ops = st.ops ++ l ∧
      srcOk l = true := by
  refine organizeFold_ops env organizeRoot dry _ st ?_
  intro fp hfp
  exact (List.mem_filter.mp hfp).2

lemma opsExt_trans {s1 s2 s3 : OrgState}
    (h1 : ∃ l, s2.ops = s1.ops ++ l ∧ srcOk l = true)
    (h2 : ∃ l, s3.ops = s2.ops ++ l ∧ srcOk l = true) :
    ∃ l, s3.ops = s1.ops ++ l ∧ srcOk l = true := by
  obtain ⟨l1, hl1, hs1⟩ := h1
  obtain ⟨l2, hl2, hs2⟩ := h2
  refine ⟨l1 ++ l2, ?_, ?_⟩
  · rw [hl2, hl1, List.append_assoc]
  · rw [srcOk_append, hs1, hs2]; rfl

lemma renamePass_opsExt (env : Env) (dry : Bool) (files : List FPath)
    (st : OrgState) :
    ∃ l, (renamePass env dry st files).ops = st.ops ++ l ∧ srcOk l = true := by
  obtain ⟨l1, hl1, hs1, _⟩ := renamePass_ops env dry files st
  exact ⟨l1, hl1, hs1⟩

lemma process_ops (env : Env) (root : List String) (st : OrgState) (r o dr : Bool) :
    ∃ l, (process_all_files env root st r o dr).ops = st.ops ++ l ∧
      srcOk l = true := by
  cases hp : env.probeResp with
  | ok200 =>
    simp only [process_all_files, hp]
    have hbase : ∃ l,
        ({ st with ops := st.ops ++ [Op.probe], console := st.console ++ [ConsoleMsg.connectionOk] } : OrgState).ops = st.ops ++ l ∧ srcOk l = true :=
      ⟨[Op.probe], rfl, rfl⟩
    split
    · refine opsExt_trans ?_ ⟨[Op.writeLog _ _], rfl, rfl⟩
      split
      · refine opsExt_trans ?_ (organize_files_ops env _ (root ++ ["Organized"]) dr)
        split
        · exact opsExt_trans hbase (renamePass_opsExt env dr _ _)
        · exact hbase
      · split
        · exact opsExt_trans hbase (renamePass_opsExt env dr _ _)
        · exact hbase
    · split
      · refine opsExt_trans ?_ (organize_files_ops env _ (root ++ ["Organized"]) dr)
        split
        · exact opsExt_trans hbase (renamePass_opsExt env dr _ _)
        · exact hbase
      · split
        · exact opsExt_trans hbase (renamePass_opsExt env dr _ _)
        · exact hbase
  | badStatus c =>
    exact ⟨[Op.probe], (by simp only [process_all_files, hp]), rfl⟩
  | connError =>
    exact ⟨[Op.probe], (by simp only [process_all_files, hp]), rfl⟩

/-! ### The claims -/

/-- Claim C1: for every set of input files and every flag combination, a
run with `dryRun = true` performs no filesystem mutation (no rename, no
directory creation, no move) and writes no log file: the filesystem is
unchanged, both in-memory logs stay empty, and no recorded operation is
a mutation. -/
theorem dry_run_no_mutation (env : Env) (root : List String) (fs : List FPath)
    (r o : Bool) :
    (process_all_files env root ⟨fs, [], [], [], []⟩ r o true).fs = fs ∧
    (process_all_files env root ⟨fs, [], [], [], []⟩ r o true).rename_log = [] ∧
    (process_all_files env root ⟨fs, [], [], [], []⟩ r o true).organize_log = [] ∧
    (process_all_files env root ⟨fs, [], [], [], []⟩ r o true).ops.all
      (fun op => !op.isMutation) = true := by
  obtain ⟨hf, hr, ho, l, hl, ha⟩ := process_dry env root ⟨fs, [], [], [], []⟩ r o
  exact ⟨hf, hr, ho, by rw [hl]; simpa using ha⟩

/-- Claim C2 (amended): on any failure (timeout, non-200 status,
exception) the category advisor returns exactly `"Miscellaneous"` and
never aborts the run; on a 200 response it returns the model's text
stripped of surrounding whitespace, with no validation against the
fixed category set. -/
theorem category_advisor_behavior (resp : HttpOutcome) :
    (resp.failed = true → ask_ai_for_category resp = "Miscellaneous") ∧
    (∀ b, resp = HttpOutcome.ok b → ask_ai_for_category resp = pyStrip b) := by
  cases resp with
  | ok b => exact ⟨(by intro h; cases h), (by intro b2 h; cases h; rfl)⟩
  | badStatus c => exact ⟨fun _ => rfl, (by intro b h; cases h)⟩
  | exn => exact ⟨fun _ => rfl, (by intro b h; cases h)⟩

/-- Witness for C2: the failure branch and the success branch,
evaluated on concrete responses. -/
theorem category_advisor_behavior_witness :
    ask_ai_for_category HttpOutcome.exn = "Miscellaneous" ∧
    ask_ai_for_category (HttpOutcome.ok "Work") = "Work" :=
  ⟨(category_advisor_behavior HttpOutcome.exn).1 rfl,
   (category_advisor_behavior (HttpOutcome.ok "Work")).2 "Work" rfl⟩

/-- Counterexample for C2 as stated: when the model answers with the
free text `"Recipes"` and status 200, the advisor returns `"Recipes"`,
which is not in the fixed closed category set. -/
theorem category_advisor_escapes_set :
    ask_ai_for_category (HttpOutcome.ok "Recipes") = "Recipes" ∧
    "Recipes" ∉ categoryLabels := by
  constructor
  · rfl
  · decide

/-- Claim C3 (amended): for every string returned by the
text-generation service, the naming suggestion produced after
sanitization is at most 60 characters long and contains none of the
characters `<>:"/\|?*`; other characters outside the spec's
alphanumeric/space/hyphen/underscore class are not removed. -/
theorem naming_sanitization_props (raw : String) :
    (cleanAiName raw).length ≤ 60 ∧
    (cleanAiName raw).data.all
      (fun c => !illegalFilenameChars.contains c) = true := by
  constructor
  · exact length_cleanAiNameList_le raw.data
  · rw [List.all_eq_true]
    intro c hc
    simp only [Bool.not_eq_true']
    exact not_illegal_of_mem_cleanAiNameList hc

/-- Counterexample for C3 as stated: the character `'#'` survives the
sanitization untouched although it is neither alphanumeric nor a space,
hyphen or underscore. -/
theorem naming_sanitization_escapes_class :
    cleanAiName "Budget Report #2" = "Budget Report #2" ∧
    '#' ∈ (cleanAiName "Budget Report #2").data ∧
    specNamingChar '#' = false := by
  refine ⟨by decide, by decide, by decide⟩

/-- Claim C4: for a sanitization-transparent suggestion and date
string, the rename engine's first candidate is
`"{suggestion} ({YYYY-MM}){ext}"`; when that name and the names with
suffixes `" [1]" .. " [N]"` are all taken by files other than the
source, and `" [N+1]"` is free, the collision search terminates and
picks the suffix `" [N+1]"` before the extension, in the same
directory. -/
theorem rename_collision_next_suffix (fs : List FPath) (fp : FPath)
    (nm fdate : String) (N : Nat)
    (hsan : sanitize_filename (renameCandidate nm fdate (pySuffix fp.name)) =
      renameCandidate nm fdate (pySuffix fp.name))
    (hbase : (⟨fp.dir, renameCandidate nm fdate (pySuffix fp.name)⟩ : FPath) ∈ fs)
    (hbase2 : (⟨fp.dir, renameCandidate nm fdate (pySuffix fp.name)⟩ : FPath) ≠ fp)
    (hocc : ∀ i, 1 ≤ i → i ≤ N →
      (⟨fp.dir, renameCandidateK nm fdate (pySuffix fp.name) i⟩ : FPath) ∈ fs ∧
      (⟨fp.dir, renameCandidateK nm fdate (pySuffix fp.name) i⟩ : FPath) ≠ fp)
    (hfree : (⟨fp.dir, renameCandidateK nm fdate (pySuffix fp.name) (N + 1)⟩ : FPath) ∉ fs)
    (hN : N ≤ fs.length) :
    renameTarget fs fp nm fdate =
      ⟨fp.dir, renameCandidateK nm fdate (pySuffix fp.name) (N + 1)⟩ := by
  simp only [renameTarget]
  rw [hsan]
  exact resolveCollision_run hocc hfree (fs.length + 2) 1 _ hbase hbase2
    le_rfl (by omega) (by omega)

/-- Witness for C4: the spec's own scenario.  `invoice_march.pdf` dated
2024-03 with suggestion `"Acme Corp Invoice"`, where the base name and
the `[1]` name already exist, gets the `[2]` suffix. -/
theorem rename_collision_next_suffix_witness :
    renameTarget c4Fs c4Src "Acme Corp Invoice" "2024-03" =
      ⟨["r"], "Acme Corp Invoice (2024-03) [2].pdf"⟩ := by
  have h := rename_collision_next_suffix c4Fs c4Src "Acme Corp Invoice" "2024-03" 1
    (by decide) (by decide) (by decide)
    (by
      intro i h1 h2
      have hi : i = 1 := by omega
      subst hi
      exact ⟨by decide, by decide⟩)
    (by decide) (by decide)
  simpa using h

/-- Claim C5: running the rename step on an already-renamed file (its
name equals the sanitized candidate built from the same suggestion and
date) yields the same target path — the file itself — and performs no
rename, in dry and in live mode alike: the state gains only the
extraction/advisor observations and console output. -/
theorem rename_already_renamed_noop (env : Env) (st : OrgState) (fp : FPath)
    (raw : String) (dry : Bool)
    (hsup : isSupported fp.name = true)
    (hresp : env.nameResp fp (extract_text_content fp (env.extractors fp)) =
      HttpOutcome.ok raw)
    (hnm : cleanAiName raw ≠ "")
    (hself : sanitize_filename (renameCandidate (cleanAiName raw) (env.dateOf fp)
      (pySuffix fp.name)) = fp.name) :
    rename_file env st fp dry =
      (some fp,
       { st with ops := st.ops ++ [Op.extract fp, Op.askName fp],
                 console := st.console ++
                   [ConsoleMsg.processing fp, ConsoleMsg.suggested fp.name] }) := by
  obtain ⟨d, n⟩ := fp
  have htarget : renameTarget st.fs ⟨d, n⟩ (cleanAiName raw) (env.dateOf ⟨d, n⟩) = ⟨d, n⟩ := by
    simp only [renameTarget]
    rw [hself]
    exact resolveCollision_self _ _ _
  simp only [rename_file, hsup, if_true, hresp, ask_ai_for_name]
  rw [if_neg hnm]
  simp only [htarget]
  rw [if_neg (by simp)]

/-- Witness for C5: a live rename of the already-renamed
`Acme Corp Invoice (2024-03).pdf` with the same suggestion returns the
file itself and does not touch the filesystem or the log. -/
theorem rename_already_renamed_noop_witness :
    rename_file okEnv c5State c5File false =
      (some c5File,
       { c5State with
          ops := c5State.ops ++ [Op.extract c5File, Op.askName c5File],
          console := c5State.console ++
            [ConsoleMsg.processing c5File, ConsoleMsg.suggested c5File.name] }) :=
  rename_already_renamed_noop okEnv c5State c5File "Acme Corp Invoice" false
    (by decide) rfl (by decide) (by decide)

/-- Claim C6: if the liveness probe fails (connection error or non-200
response), the orchestrator aborts with a user-visible console error
before enumerating files: the final state differs from the initial one
only by the probe observation and that error message — no advisor call,
no filesystem change, no log. -/
theorem probe_failure_aborts (env : Env) (root : List String) (st : OrgState)
    (r o dry : Bool) (h : env.probeResp ≠ ProbeOutcome.ok200) :
    ∃ m, (m = ConsoleMsg.connectionFailed ∨ m = ConsoleMsg.cannotConnect) ∧
      process_all_files env root st r o dry =
        { st with ops := st.ops ++ [Op.probe], console := st.console ++ [m] } := by
  cases hp : env.probeResp with
  | ok200 => exact absurd hp h
  | badStatus c =>
    exact ⟨ConsoleMsg.connectionFailed, Or.inl rfl, by simp only [process_all_files, hp]⟩
  | connError =>
    exact ⟨ConsoleMsg.cannotConnect, Or.inr rfl, by simp only [process_all_files, hp]⟩

/-- Witness for C6: with the service down, a live run over one file
ends with only the probe recorded and the error message printed. -/
theorem probe_failure_aborts_witness :
    process_all_files serviceDownEnv ["r"] ⟨[⟨["r"], "notes.txt"⟩], [], [], [], []⟩
        true true false =
      ⟨[⟨["r"], "notes.txt"⟩], [], [], [Op.probe], [ConsoleMsg.cannotConnect]⟩ := by
  obtain ⟨m, hm, he⟩ := probe_failure_aborts serviceDownEnv ["r"]
    ⟨[⟨["r"], "notes.txt"⟩], [], [], [], []⟩ true true false (by decide)
  rcases hm with hm | hm <;> rw [hm] at he
  · exact absurd he (by decide)
  · exact he

/-- Claim C7: when the naming-advisor call for a file times out, raises
or returns a non-success status, the advisor yields no suggestion and
the rename step skips the file: a warning is printed, the filesystem
and the rename log are unchanged, and every later supported file of the
pass still gets its advisor call. -/
theorem advisor_failure_skips (env : Env) (st : OrgState) (fp : FPath) (dry : Bool)
    (rest : List FPath)
    (hsup : isSupported fp.name = true)
    (hfail : (env.nameResp fp (extract_text_content fp (env.extractors fp))).failed = true) :
    ask_ai_for_name (env.nameResp fp (extract_text_content fp (env.extractors fp))) = none ∧
    rename_file env st fp dry =
      (none, { st with ops := st.ops ++ [Op.extract fp, Op.askName fp],
                       console := st.console ++
                         [ConsoleMsg.processing fp, ConsoleMsg.warnNoName fp] }) ∧
    ∀ g ∈ rest, isSupported g.name = true →
      Op.askName g ∈ (renamePass env dry st (fp :: rest)).ops := by
  have hnone : ask_ai_for_name
      (env.nameResp fp (extract_text_content fp (env.extractors fp))) = none := by
    cases hout : env.nameResp fp (extract_text_content fp (env.extractors fp)) with
    | ok b => rw [hout] at hfail; cases hfail
    | badStatus c => rfl
    | exn => rfl
  refine ⟨hnone, ?_, ?_⟩
  · simp only [rename_file, hsup, if_true, hnone]
  · intro g hg hgs
    obtain ⟨l, hl, _, hm⟩ := renamePass_ops env dry (fp :: rest) st
    rw [hl]
    exact List.mem_append_right st.ops (hm g (List.mem_cons_of_mem fp hg) hgs)

/-- Witness for C7: the advisor times out on `notes.txt`; the file is
skipped with a warning, yet `report.pdf`, processed next, still gets
its advisor call. -/
theorem advisor_failure_skips_witness :
    rename_file advisorDownEnv c7State c7File false =
      (none,
       { c7State with
          ops := c7State.ops ++ [Op.extract c7File, Op.askName c7File],
          console := c7State.console ++
            [ConsoleMsg.processing c7File, ConsoleMsg.warnNoName c7File] }) ∧
    Op.askName c7File2 ∈ (renamePass advisorDownEnv false c7State [c7File, c7File2]).ops := by
  have h := advisor_failure_skips advisorDownEnv c7State c7File false [c7File2]
    (by decide) (by decide)
  exact ⟨h.2.1, h.2.2 c7File2 (by simp) (by decide)⟩

/-- Claim C8: a file whose extension (case-insensitively) is outside
the supported set is excluded by discovery, is returned untouched by
the rename step with a completely unchanged state, and no operation of
a whole run — extraction, advisor call, rename or move — is ever
applied to it. -/
theorem unsupported_excluded (env : Env) (root : List String) (fs : List FPath)
    (r o dr : Bool) (fp : FPath) (st : OrgState)
    (h : isSupported fp.name = false) :
    fp ∉ fs.filter (fun p => isSupported p.name) ∧
    rename_file env st fp dr = (none, st) ∧
    (process_all_files env root ⟨fs, [], [], [], []⟩ r o dr).ops.all
      (fun op => !opTouches fp op) = true := by
  refine ⟨?_, ?_, ?_⟩
  · intro hmem
    have hx := (List.mem_filter.mp hmem).2
    rw [h] at hx; cases hx
  · simp [rename_file, h]
  · obtain ⟨l, hl, hs⟩ := process_ops env root ⟨fs, [], [], [], []⟩ r o dr
    rw [hl]
    simp only [srcOk] at hs
    rw [List.all_eq_true] at hs
    rw [List.all_eq_true]
    intro op hop
    have hop2 : op ∈ l := by simpa using hop
    cases hsrc : opSource op with
    | none => simp [opTouches, hsrc]
    | some q =>
      have hq : isSupported q.name = true := by
        have hx := hs op hop2
        rw [hsrc] at hx
        exact hx
      have hne : q ≠ fp := by
        intro he
        rw [he, h] at hq
        cases hq
      simp [opTouches, hsrc, hne]

/-- Witness for C8: a full live run over `virus.exe` and `notes.txt`
never applies any operation to `virus.exe`. -/
theorem unsupported_excluded_witness :
    c8File ∉ c8Fs.filter (fun p => isSupported p.name) ∧
    rename_file advisorDownEnv ⟨c8Fs, [], [], [], []⟩ c8File false =
      (none, ⟨c8Fs, [], [], [], []⟩) ∧
    (process_all_files advisorDownEnv ["r"] ⟨c8Fs, [], [], [], []⟩ true true false).ops.all
      (fun op => !opTouches c8File op) = true :=
  unsupported_excluded advisorDownEnv ["r"] c8Fs true true false c8File
    ⟨c8Fs, [], [], [], []⟩ (by decide)

/-- Claim C9: the organize engine's collision loop, unlike the rename
engine's, has no exception for the target being the source file itself:
a live organize run on a file already sitting at its computed
destination `{organizeRoot}/Finance/bank_stmt.csv` moves it to the
`" [1]"`-suffixed name instead of leaving it in place. -/
theorem organize_moves_file_at_destination :
    (organize_files c9Env c9State ["root", "Organized"] false).fs =
      [⟨["root", "Organized", "Finance"], "bank_stmt [1].csv"⟩] ∧
    Op.move c9File ⟨["root", "Organized", "Finance"], "bank_stmt [1].csv"⟩ ∈
      (organize_files c9Env c9State ["root", "Organized"] false).ops := by
  exact ⟨by decide, by decide⟩

/-- Claim C10: for files with extension `.doc`, `.rtf` or `.odt`,
`extract_text_content` hits no extraction branch and returns the empty
string, so both advisor prompts receive an empty content preview
(`content[:1000]` and `content[:800]` are empty). -/
theorem extract_no_content_doc_rtf_odt (fp : FPath) (ex : Extractors)
    (h : pyLower (pySuffix fp.name) = ".doc" ∨ pyLower (pySuffix fp.name) = ".rtf" ∨
         pyLower (pySuffix fp.name) = ".odt") :
    extract_text_content fp ex = "" ∧
    String.mk ((extract_text_content fp ex).data.take 1000) = "" ∧
    String.mk ((extract_text_content fp ex).data.take 800) = "" := by
  have he : extract_text_content fp ex = "" := by
    simp only [extract_text_content]
    rcases h with h | h | h <;> rw [h] <;> rfl
  exact ⟨he, by rw [he]; rfl, by rw [he]; rfl⟩

/-- Witness for C10: a `.DOC` file yields an empty preview even though
every extraction oracle would have returned text. -/
theorem extract_no_content_doc_rtf_odt_witness :
    extract_text_content ⟨["r"], "contract.DOC"⟩
      ⟨some "a", some "b", some "c", some "d", some "e", some "f"⟩ = "" :=
  (extract_no_content_doc_rtf_odt _ _ (Or.inl (by decide))).1
